import Mathlib

/-!
Verification of the STACK-WINDOWS spatial stacking engine.

This file gives a shallow embedding of the stack engine of
`src/main/window-manager.js` (the first, current copy of the class in that
file: lines 13-841), of the instance registry of the unnamed registry module
(`InstanceRegistry`), and proves the frozen claims about them.

Modelling conventions:
- A Win32 HWND is a `Nat`; the value `0` models the NULL handle, which the
  engine uses as the "no active window" sentinel (`this.activeHwnd = 0`).
- The slice of the Win32 API the engine consults is a record of pure
  functions (`OSEnv`); a call that can fail returns `Option`.
- JS numbers that hold pixel coordinates are embedded as `Int`.
  `Math.floor(effectiveHeight * 0.6)` is embedded as `Int.fdiv (3 * h) 5`:
  for every integer `|h| < 2 ^ 51` the IEEE-754 double computation
  `Math.floor(h * 0.6)` equals the exact rational `⌊3h/5⌋`, because the
  relative error of `0.6` and of the product is far below the distance of
  `3h/5` to the nearest smaller integer (and when `5 ∣ 3h` the product
  rounds back to the exact integer, being within half an ulp of it).
- `Math.floor(a / b)` on integers is `Int.fdiv a b`.  The single reachable
  division-by-zero (JS `-Infinity`, floored, then `Math.max(·, 10)` gives 10)
  also yields 10 here (`Int.fdiv x 0 = 0`, `max 0 10 = 10`).
- Native side effects (SetWindowPos, SetForegroundWindow, ShowWindow,
  logging, animation timers) do not change the model state of the engine and are
  not represented; the output of the layout algorithm is the list of target
  rectangles handed to the positioning batch.
-/

namespace StackWindows

/-- A Win32 RECT as read by `GetWindowRect`. -/
structure WRect where
  left : Int
  top : Int
  right : Int
  bottom : Int
deriving DecidableEq, Repr

/-- One entry of `this.managedWindows`:
`{ hwnd, title, customTitle, processId, originalRect }`. -/
structure MWindow where
  hwnd : Nat
  title : String
  customTitle : Option String
  processId : Nat
  originalRect : WRect
deriving DecidableEq, Repr

/-- The mutable fields of the `WindowManager` class that the claims touch.
Animation bookkeeping (`_animationTimer`, `_currentTargets`,
`_restoreAnimationTimers`) carries no model state and is omitted. -/
structure WMState where
  managedWindows : List MWindow
  activeHwnd : Nat
  stackName : String
  hideAvailable : Bool
  backgroundColor : String
  customWidth : Option Int
  customHeight : Option Int
deriving DecidableEq, Repr

/-- The constructor state of `WindowManager`. -/
def WMState.init : WMState :=
  { managedWindows := []
    activeHwnd := 0
    stackName := "Managed Stack"
    hideAvailable := false
    backgroundColor := "#000000"
    customWidth := none
    customHeight := none }

/-- The slice of the Win32 API surface (`win32.js`) the engine reads.
`windowRect h = none` models a failing `GetWindowRect` call (the JS code then
keeps the zero-initialised rect). -/
structure OSEnv where
  isWindow : Nat → Bool
  isWindowVisible : Nat → Bool
  isIconic : Nat → Bool
  isZoomed : Nat → Bool
  windowRect : Nat → Option WRect
  windowPid : Nat → Nat
  windowTitle : Nat → String

/-- `Array.prototype.findIndex`, returning `none` for JS `-1`. -/
def findIndex? {α : Type} (p : α → Bool) : List α → Option Nat
  | [] => none
  | a :: as => if p a then some 0 else (findIndex? p as).map (fun i => i + 1)

/-- `Array.prototype.splice(idx, 1)`: drop the element at index `idx`. -/
def spliceAt {α : Type} : List α → Nat → List α
  | [], _ => []
  | _ :: as, 0 => as
  | a :: as, n + 1 => a :: spliceAt as n

/-- `addWindow(hwnd, title)` (window-manager.js lines 140-181).  No-op when
the handle is already managed or `IsWindow` rejects it; otherwise records the
current rect, inserts the entry at the front and makes it active.  The
`ShowWindow`/`SetForegroundWindow` calls have no model-state effect. -/
def addWindow (env : OSEnv) (s : WMState) (hwnd : Nat) (title : String) : WMState :=
  if s.managedWindows.any (fun w => w.hwnd == hwnd) then s
  else if !env.isWindow hwnd then s
  else
    let rect := (env.windowRect hwnd).getD { left := 0, top := 0, right := 0, bottom := 0 }
    let entryTitle :=
      if title.isEmpty then
        if (env.windowTitle hwnd).isEmpty then "Untitled" else env.windowTitle hwnd
      else title
    let entry : MWindow :=
      { hwnd := hwnd
        title := entryTitle
        customTitle := none
        processId := env.windowPid hwnd
        originalRect := rect }
    { s with managedWindows := entry :: s.managedWindows, activeHwnd := hwnd }

/-- `removeWindow(hwnd)` (window-manager.js lines 186-203).  No-op when the
handle is not managed; otherwise splices the entry out and, if it was the
active one, promotes the new front entry (or the 0 sentinel). -/
def removeWindow (s : WMState) (hwnd : Nat) : WMState :=
  match findIndex? (fun w => w.hwnd == hwnd) s.managedWindows with
  | none => s
  | some idx =>
    let ws := spliceAt s.managedWindows idx
    { s with
      managedWindows := ws
      activeHwnd :=
        if s.activeHwnd == hwnd then
          match ws.head? with
          | some w => w.hwnd
          | none => 0
        else s.activeHwnd }

/-- `promoteToActive(hwnd, forceNativeForeground)` (window-manager.js lines
212-233).  Returns the new state and the JS boolean result.  The
`forceNativeForeground` flag only drives a native `SetForegroundWindow` call,
which has no model-state effect. -/
def promoteToActive (s : WMState) (hwnd : Nat) (forceNativeForeground : Bool) :
    WMState × Bool :=
  match findIndex? (fun w => w.hwnd == hwnd) s.managedWindows with
  | none => (s, false)
  | some _ =>
    if s.activeHwnd == hwnd then (s, false)
    else ({ s with activeHwnd := hwnd }, true)

/-- Decide `/^#[0-9a-fA-F]$/`-class hex digit membership. -/
def isHexDigitChar (c : Char) : Bool :=
  (decide ('0' ≤ c) && decide (c ≤ '9')) ||
  (decide ('a' ≤ c) && decide (c ≤ 'f')) ||
  (decide ('A' ≤ c) && decide (c ≤ 'F'))

/-- The regex test of `setBackgroundColor`: a `#` followed by exactly six hex
digits. -/
def matchesHexColor (s : String) : Bool :=
  match s.data with
  | '#' :: rest => rest.length == 6 && rest.all isHexDigitChar
  | _ => false

/-- `setBackgroundColor(color)` (window-manager.js lines 54-58).  The JS
`typeof color` string guard is absorbed by typing the argument as a
string. -/
def setBackgroundColor (s : WMState) (color : String) : WMState :=
  if matchesHexColor color then { s with backgroundColor := color } else s

/-- The `screenBounds` argument of `layoutStack` as built by `doLayout` in
`main.js`: `x`/`width` of the controller panel and `y`/`height`/right edge of
the monitor work area (`displayRightEdge`, `none` modelling the JS `null`
backward-compat fallback). -/
structure ScreenBounds where
  x : Int
  y : Int
  width : Int
  height : Int
  displayRightEdge : Option Int
deriving DecidableEq, Repr

/-- One entry of the `targetLayouts` batch built by `layoutStack`. -/
structure TargetLayout where
  hwnd : Nat
  x : Int
  y : Int
  cx : Int
  cy : Int
  flags : Nat
  restore : Bool
deriving DecidableEq, Repr

def SWP_NOACTIVATE : Nat := 0x0010

def SWP_SHOWWINDOW : Nat := 0x0040

/-- `HEADER_HEIGHT` (window-manager.js line 11). -/
def HEADER_HEIGHT : Int := 40

/-- `const startX = workArea.x + workArea.width` (line 594). -/
def stackStartX (sb : ScreenBounds) : Int := sb.x + sb.width

/-- `displayRightEdge` with the backward-compat fallback (lines 598-600). -/
def displayRightEdgeOf (sb : ScreenBounds) : Int :=
  match sb.displayRightEdge with
  | some e => e
  | none => stackStartX sb + 1920

/-- `const availableWidth = displayRightEdge - startX` (line 601). -/
def availableWidthOf (sb : ScreenBounds) : Int :=
  displayRightEdgeOf sb - stackStartX sb

/-- `effectiveWidth` (lines 609-611): the custom width clamped to the
available width, or the full available width. -/
def effectiveWidthOf (s : WMState) (sb : ScreenBounds) : Int :=
  match s.customWidth with
  | some w => min w (availableWidthOf sb)
  | none => availableWidthOf sb

/-- `effectiveHeight` (lines 612-614): the custom height clamped to
`availableHeight = workArea.height`, or the full available height. -/
def effectiveHeightOf (s : WMState) (sb : ScreenBounds) : Int :=
  match s.customHeight with
  | some h => min h sb.height
  | none => sb.height

/-- `activeWindow` (lines 617-618): the entry with the active handle, else
the front entry. -/
def activeWindowOf (s : WMState) : Option MWindow :=
  match s.managedWindows.find? (fun w => w.hwnd == s.activeHwnd) with
  | some w => some w
  | none => s.managedWindows.head?

/-- `trueActiveHwnd` (line 619). -/
def trueActiveHwnd (s : WMState) : Nat :=
  match activeWindowOf s with
  | some w => w.hwnd
  | none => 0

/-- `inactiveCount = managedWindows.length - (activeWindow ? 1 : 0)`
(line 621). -/
def inactiveCountOf (s : WMState) : Int :=
  (s.managedWindows.length : Int) - (if (activeWindowOf s).isSome then 1 else 0)

/-- `maxStripArea = Math.floor(effectiveHeight * 0.6)` (line 624); see the
header comment for the exactness of `⌊3h/5⌋`. -/
def maxStripArea (effectiveHeight : Int) : Int :=
  Int.fdiv (3 * effectiveHeight) 5

/-- `effectiveHeaderHeight` (lines 625-628): the 40px strip height, shrunk
(floor 10px) when the strips would consume more than 60% of the effective
height. -/
def effectiveHeaderHeight (effectiveHeight : Int) (inactiveCount : Int) : Int :=
  if inactiveCount * HEADER_HEIGHT > maxStripArea effectiveHeight then
    max (Int.fdiv (maxStripArea effectiveHeight) inactiveCount) 10
  else HEADER_HEIGHT

/-- The strip targets pushed for the non-active windows (lines 633-650):
the loop keeps the managed order, skips the active handle and advances
`stripIndex` once per emitted strip. -/
def stripTargets (env : OSEnv) (s : WMState) (sb : ScreenBounds) : List TargetLayout :=
  ((s.managedWindows.filter (fun w => w.hwnd != trueActiveHwnd s)).enum).map
    (fun p =>
      { hwnd := p.2.hwnd
        x := stackStartX sb
        y := sb.y + (p.1 : Int) * effectiveHeaderHeight (effectiveHeightOf s sb) (inactiveCountOf s)
        cx := effectiveWidthOf s sb
        cy := effectiveHeightOf s sb
        flags := SWP_NOACTIVATE ||| SWP_SHOWWINDOW
        restore := env.isIconic p.2.hwnd || env.isZoomed p.2.hwnd })

/-- The target pushed for the active window (lines 653-666). -/
def activeTarget (env : OSEnv) (s : WMState) (sb : ScreenBounds) : List TargetLayout :=
  match activeWindowOf s with
  | none => []
  | some aw =>
    let ehh := effectiveHeaderHeight (effectiveHeightOf s sb) (inactiveCountOf s)
    let activeHeight := effectiveHeightOf s sb - inactiveCountOf s * ehh
    [{ hwnd := aw.hwnd
       x := stackStartX sb
       y := sb.y + inactiveCountOf s * ehh
       cx := effectiveWidthOf s sb
       cy := if activeHeight > 100 then activeHeight else effectiveHeightOf s sb
       flags := SWP_SHOWWINDOW ||| SWP_NOACTIVATE
       restore := env.isIconic aw.hwnd || env.isZoomed aw.hwnd }]

/-- `layoutStack(screenBounds)` (window-manager.js lines 589-669).  Returns
`none` when the call positions nothing (no managed windows, or fewer than
200px available right of the controller: the logged skip), otherwise the
target batch handed to `_animateLayout`: the strips first, then the active
window. -/
def layoutStack (env : OSEnv) (s : WMState) (sb : ScreenBounds) :
    Option (List TargetLayout) :=
  if s.managedWindows.isEmpty then none
  else if availableWidthOf sb < 200 then none
  else some (stripTargets env s sb ++ activeTarget env s sb)

/-- The `[0,500]` clamp of the `stackGap` presentation setting (spec §3). -/
def clampGap (g : Int) : Int := min (max g 0) 500

/-- Modelled from the spec: the stack-gap-aware `layoutStack` of the newer
`WindowManager` missing from `src/` — `main.js` calls its
`getStackGap`/`setStackGap`/`getTopOffset`/`setTopOffset` accessors and the
persistence layer stores `stackGap`, but the provided `window-manager.js`
predates them.  Spec §4.1 step 1: `stackOriginX = panelBounds.right +
stackGap` (the setting clamped to `[0,500]`, spec §3), rejecting the call as
a logged no-op when the available monitor width right of the origin is
below the 200px floor; the remaining geometry follows the provided
`layoutStack` via an equivalent `ScreenBounds` whose panel right edge is the
gapped origin. -/
def layoutStackWithGap (env : OSEnv) (s : WMState) (panelRight stackGap workY workH monitorRight : Int) :
    Option (List TargetLayout) :=
  let origin := panelRight + clampGap stackGap
  let sb : ScreenBounds :=
    { x := origin, y := workY, width := 0, height := workH,
      displayRightEdge := some monitorRight }
  if s.managedWindows.isEmpty then none
  else if monitorRight - origin < 200 then none
  else some (stripTargets env s sb ++ activeTarget env s sb)

/-- One engine mutation, for the claim about sequences of operations.  The
`add` constructor carries the OS environment the call observes. -/
inductive StackOp where
  | add (env : OSEnv) (hwnd : Nat) (title : String)
  | remove (hwnd : Nat)
  | promote (hwnd : Nat) (force : Bool)

/-- Apply one operation to the engine state. -/
def applyOp (s : WMState) : StackOp → WMState
  | .add env h t => addWindow env s h t
  | .remove h => removeWindow s h
  | .promote h f => (promoteToActive s h f).1

/-- Apply a sequence of operations, oldest first. -/
def applyOps (s : WMState) (ops : List StackOp) : WMState :=
  ops.foldl applyOp s

/-- The Win32 well-formedness of an observed environment: `IsWindow(NULL)`
is always `FALSE`, so the 0 sentinel can never be added as a real handle. -/
def opWf : StackOp → Prop
  | .add env _ _ => env.isWindow 0 = false
  | .remove _ => True
  | .promote _ _ => True

instance (op : StackOp) : Decidable (opWf op) := by
  cases op with
  | add env h t => exact inferInstanceAs (Decidable (env.isWindow 0 = false))
  | remove h => exact inferInstanceAs (Decidable True)
  | promote h f => exact inferInstanceAs (Decidable True)

/-- The stack invariant of spec §3/§8: distinct handles, the NULL sentinel
never among them, the sentinel exactly on the empty stack, and otherwise an
active handle drawn from the entries. -/
def StackInv (s : WMState) : Prop :=
  (s.managedWindows.map MWindow.hwnd).Nodup ∧
  0 ∉ s.managedWindows.map MWindow.hwnd ∧
  (s.managedWindows = [] → s.activeHwnd = 0) ∧
  (s.managedWindows ≠ [] → s.activeHwnd ∈ s.managedWindows.map MWindow.hwnd)

/-- One `InstanceRecord` of the registry file:
`{ pid, startedAt, managedHwnds }`. -/
structure InstEntry where
  pid : Nat
  startedAt : String
  managedHwnds : List Nat
deriving DecidableEq, Repr

/-- The decoded `instance-registry.json`: instance ids mapped to entries, in
JS object key order. -/
abbrev Registry := List (String × InstEntry)

/-- `_pruneDeadInstances(registry)` (registry module lines 108-119): keep the
entries whose pid answers the no-op signal. -/
def pruneDeadInstances (alive : Nat → Bool) (reg : Registry) : Registry :=
  List.filter (fun e => alive (Prod.snd e).pid) reg

/-- `getOtherInstancesHwnds()` (registry module lines 173-192): re-read,
prune the dead entries, persist the pruned registry, and collect the
managed handles of every other entry.  Returns the written registry and the collected
handles (the JS `Set` is modelled by the concatenation; membership is what
the claims consume). -/
def getOtherInstancesHwnds (alive : Nat → Bool) (selfId : String) (reg : Registry) :
    Registry × List Nat :=
  let pruned := pruneDeadInstances alive reg
  (pruned,
    (List.filter (fun e => Prod.fst e != selfId) pruned).map
        (fun e => (Prod.snd e).managedHwnds) |>.flatten)

/-- A concrete OS environment for witnesses: every nonzero handle is a live
window (Win32 `IsWindow(NULL)` is always false), nothing is iconic or zoomed,
`GetWindowRect` fails, titles are empty. -/
def envW : OSEnv :=
  { isWindow := fun h => h != 0
    isWindowVisible := fun _ => true
    isIconic := fun _ => false
    isZoomed := fun _ => false
    windowRect := fun _ => none
    windowPid := fun _ => 7
    windowTitle := fun _ => "" }

/-- A concrete managed entry for witnesses. -/
def mw (h : Nat) : MWindow :=
  { hwnd := h
    title := "w"
    customTitle := none
    processId := 7
    originalRect := { left := 0, top := 0, right := 0, bottom := 0 } }

/-- A three-window stack (handles 1, 2, 3; 1 active) for witnesses. -/
def s3 : WMState :=
  { WMState.init with managedWindows := [mw 1, mw 2, mw 3], activeHwnd := 1 }

/-- A one-window stack for witnesses. -/
def s1 : WMState :=
  { WMState.init with managedWindows := [mw 1], activeHwnd := 1 }

/-- Concrete bounds for witnesses: panel right edge at 300, work area
1080 tall, display right edge 1920. -/
def sb0 : ScreenBounds :=
  { x := 0, y := 0, width := 300, height := 1080, displayRightEdge := some 1920 }

/-- The batch `layoutStack envW s3 sb0` computes. -/
def lsW : List TargetLayout :=
  [{ hwnd := 2, x := 300, y := 0, cx := 1620, cy := 1080, flags := 80, restore := false },
   { hwnd := 3, x := 300, y := 40, cx := 1620, cy := 1080, flags := 80, restore := false },
   { hwnd := 1, x := 300, y := 80, cx := 1620, cy := 1000, flags := 80, restore := false }]

/-- The batch `layoutStack envW s1 sb0` computes. -/
def rW1 : TargetLayout :=
  { hwnd := 1, x := 300, y := 0, cx := 1620, cy := 1080, flags := 80, restore := false }

/-- A concrete operation sequence for the invariant witness. -/
def opsW : List StackOp :=
  [.add envW 1 "a", .add envW 2 "b", .add envW 1 "dup", .promote 1 true,
   .remove 2, .add envW 3 "c", .promote 9 false]

/-- A registry in which another live instance lists a handle that the
calling instance also claims. -/
def regC : Registry :=
  [("self", { pid := 1, startedAt := "t0", managedHwnds := [5] }),
   ("other", { pid := 2, startedAt := "t1", managedHwnds := [5] })]

/-! Helper lemmas about the JS array helpers and the engine operations. -/

theorem findIndex?_eq_none_iff {α : Type} {p : α → Bool} {l : List α} :
    findIndex? p l = none ↔ ∀ a ∈ l, p a = false := by
  induction l with
  | nil => simp [findIndex?]
  | cons a as ih =>
    simp only [findIndex?, List.forall_mem_cons]
    by_cases h : p a
    · simp [h]
    · simp [h, Option.map_eq_none', ih]

theorem findIndex?_some_exists {α : Type} {p : α → Bool} {l : List α} {i : Nat}
    (h : findIndex? p l = some i) : ∃ a ∈ l, p a = true := by
  induction l generalizing i with
  | nil => simp [findIndex?] at h
  | cons a as ih =>
    simp only [findIndex?] at h
    by_cases hp : p a
    · exact ⟨a, List.mem_cons_self a as, hp⟩
    · rw [if_neg hp] at h
      obtain ⟨j, hj, _⟩ := Option.map_eq_some'.mp h
      obtain ⟨b, hb, hpb⟩ := ih hj
      exact ⟨b, List.mem_cons_of_mem _ hb, hpb⟩

theorem spliceAt_findIndex_eq_filter {l : List MWindow} {h : Nat} {i : Nat}
    (hnd : (l.map MWindow.hwnd).Nodup)
    (hf : findIndex? (fun w => w.hwnd == h) l = some i) :
    spliceAt l i = l.filter (fun w => w.hwnd != h) := by
  induction l generalizing i with
  | nil => simp [findIndex?] at hf
  | cons a as ih =>
    simp only [findIndex?] at hf
    by_cases hp : (a.hwnd == h) = true
    · rw [if_pos hp] at hf
      obtain rfl : (0 : Nat) = i := Option.some.inj hf
      have ha : a.hwnd = h := eq_of_beq hp
      rw [List.map_cons, List.nodup_cons] at hnd
      have hnotin : a.hwnd ∉ as.map MWindow.hwnd := hnd.1
      have hall : ∀ w ∈ as, (w.hwnd != h) = true := by
        intro w hw
        refine bne_iff_ne.mpr ?_
        intro e
        exact hnotin (by rw [ha, ← e] at hnotin ⊢; exact List.mem_map_of_mem _ hw)
      have hfa : (a.hwnd != h) = false := by simp [ha]
      simp [spliceAt, List.filter_cons, hfa, List.filter_eq_self.mpr hall]
    · rw [if_neg hp] at hf
      obtain ⟨j, hj, hji⟩ := Option.map_eq_some'.mp hf
      subst hji
      have hta : (a.hwnd != h) = true := by
        simpa [bne] using hp
      rw [List.map_cons, List.nodup_cons] at hnd
      have htl : (as.map MWindow.hwnd).Nodup := hnd.2
      simp [spliceAt, List.filter_cons, hta, ih htl hj]

theorem mem_map_of_findIndex?_some {l : List MWindow} {h : Nat} {i : Nat}
    (hf : findIndex? (fun w => w.hwnd == h) l = some i) :
    h ∈ l.map MWindow.hwnd := by
  obtain ⟨w, hw, hpw⟩ := findIndex?_some_exists hf
  exact (eq_of_beq hpw) ▸ List.mem_map_of_mem _ hw

theorem findIndex?_eq_none_of_not_mem {l : List MWindow} {h : Nat}
    (hm : h ∉ l.map MWindow.hwnd) :
    findIndex? (fun w => w.hwnd == h) l = none := by
  refine findIndex?_eq_none_iff.mpr ?_
  intro w hw
  refine beq_eq_false_iff_ne.mpr ?_
  intro e
  exact hm (e ▸ List.mem_map_of_mem _ hw)

theorem removeWindow_not_mem {s : WMState} {h : Nat}
    (hm : h ∉ s.managedWindows.map MWindow.hwnd) : removeWindow s h = s := by
  simp [removeWindow, findIndex?_eq_none_of_not_mem hm]

theorem stackInv_addWindow (env : OSEnv) {s : WMState} (hs : StackInv s)
    (h0 : env.isWindow 0 = false) (hwnd : Nat) (title : String) :
    StackInv (addWindow env s hwnd title) := by
  obtain ⟨hnd, h0m, hemp, hne⟩ := hs
  unfold addWindow
  cases hany : s.managedWindows.any (fun w => w.hwnd == hwnd) with
  | true => exact ⟨hnd, h0m, hemp, hne⟩
  | false =>
    cases hiw : env.isWindow hwnd with
    | false => exact ⟨hnd, h0m, hemp, hne⟩
    | true =>
      simp only [Bool.not_true, Bool.false_eq_true, if_false]
      have hfresh : hwnd ∉ s.managedWindows.map MWindow.hwnd := by
        intro hmem
        obtain ⟨w, hw, hww⟩ := List.mem_map.mp hmem
        have : ∀ x ∈ s.managedWindows, ¬(x.hwnd == hwnd) = true :=
          List.any_eq_false.mp hany
        exact this w hw (by simp [hww])
      have hz : hwnd ≠ 0 := by
        intro e
        rw [e] at hiw
        rw [h0] at hiw
        exact Bool.false_ne_true hiw
      refine ⟨?_, ?_, ?_, ?_⟩
      · have hfresh2 : ∀ x ∈ s.managedWindows, ¬x.hwnd = hwnd := by simpa using hfresh
        simpa [List.nodup_cons] using ⟨hfresh2, hnd⟩
      · intro hmem
        have hmem2 : 0 = hwnd ∨ ∃ a ∈ s.managedWindows, a.hwnd = 0 := by simpa using hmem
        rcases hmem2 with e | ⟨a, ha, ha0⟩
        · exact hz e.symm
        · exact h0m (ha0 ▸ List.mem_map_of_mem _ ha)
      · intro he
        exact absurd he (by simp)
      · intro _
        simp
theorem removeWindow_found {s : WMState} {h : Nat} {i : Nat}
    (hf : findIndex? (fun w => w.hwnd == h) s.managedWindows = some i) :
    removeWindow s h = { s with
      managedWindows := spliceAt s.managedWindows i
      activeHwnd := if s.activeHwnd == h then
          match (spliceAt s.managedWindows i).head? with
          | some w => w.hwnd
          | none => 0
        else s.activeHwnd } := by
  unfold removeWindow
  rw [hf]

theorem promoteToActive_not_found {s : WMState} {h : Nat} (f : Bool)
    (hf : findIndex? (fun w => w.hwnd == h) s.managedWindows = none) :
    promoteToActive s h f = (s, false) := by
  unfold promoteToActive
  rw [hf]

theorem promoteToActive_already {s : WMState} {h : Nat} (f : Bool) {i : Nat}
    (hf : findIndex? (fun w => w.hwnd == h) s.managedWindows = some i)
    (hah : (s.activeHwnd == h) = true) :
    promoteToActive s h f = (s, false) := by
  unfold promoteToActive
  rw [hf]
  simp [hah]

theorem promoteToActive_changed {s : WMState} {h : Nat} (f : Bool) {i : Nat}
    (hf : findIndex? (fun w => w.hwnd == h) s.managedWindows = some i)
    (hah : (s.activeHwnd == h) = false) :
    promoteToActive s h f = ({ s with activeHwnd := h }, true) := by
  unfold promoteToActive
  rw [hf]
  simp [hah]

theorem stackInv_removeWindow {s : WMState} (hs : StackInv s) (h : Nat) :
    StackInv (removeWindow s h) := by
  obtain ⟨hnd, h0m, hemp, hne⟩ := hs
  cases hf : findIndex? (fun w => w.hwnd == h) s.managedWindows with
  | none =>
    rw [show removeWindow s h = s by unfold removeWindow; rw [hf]]
    exact ⟨hnd, h0m, hemp, hne⟩
  | some i =>
    rw [removeWindow_found hf]
    have hfil := spliceAt_findIndex_eq_filter hnd hf
    have hsub : ((spliceAt s.managedWindows i).map MWindow.hwnd).Sublist
        (s.managedWindows.map MWindow.hwnd) := by
      rw [hfil]
      exact List.Sublist.map _ (List.filter_sublist _)
    have hlne : s.managedWindows ≠ [] := by
      intro e
      rw [e] at hf
      simp [findIndex?] at hf
    refine ⟨hsub.nodup hnd, fun hmem => h0m (hsub.subset hmem), ?_, ?_⟩
    · intro he
      have he2 : spliceAt s.managedWindows i = [] := he
      simp only [he2, List.head?_nil]
      cases hah : s.activeHwnd == h with
      | true => simp
      | false =>
        exfalso
        have hact := hne hlne
        obtain ⟨w, hw, hwa⟩ := List.mem_map.mp hact
        have hwh : w.hwnd ≠ h := by
          rw [hwa]
          intro e
          rw [e] at hah
          simp at hah
        have hwmem : w ∈ spliceAt s.managedWindows i := by
          rw [hfil]
          exact List.mem_filter.mpr ⟨hw, bne_iff_ne.mpr hwh⟩
        rw [he2] at hwmem
        exact (List.not_mem_nil w) hwmem
    · intro hne2
      have hne3 : spliceAt s.managedWindows i ≠ [] := hne2
      show (if s.activeHwnd == h then
          match (spliceAt s.managedWindows i).head? with
          | some w => w.hwnd
          | none => 0
        else s.activeHwnd) ∈ (spliceAt s.managedWindows i).map MWindow.hwnd
      cases hah : s.activeHwnd == h with
      | true =>
        simp only [if_pos rfl]
        cases hh : (spliceAt s.managedWindows i).head? with
        | none => exact absurd (List.head?_eq_none_iff.mp hh) hne3
        | some w =>
          have hwmem : w ∈ spliceAt s.managedWindows i :=
            List.mem_of_mem_head? (by simp [hh])
          exact List.mem_map_of_mem _ hwmem
      | false =>
        simp only [Bool.false_eq_true, if_false]
        have hact := hne hlne
        obtain ⟨w, hw, hwa⟩ := List.mem_map.mp hact
        have hwh : w.hwnd ≠ h := by
          rw [hwa]
          intro e
          rw [e] at hah
          simp at hah
        have hwmem : w ∈ spliceAt s.managedWindows i := by
          rw [hfil]
          exact List.mem_filter.mpr ⟨hw, bne_iff_ne.mpr hwh⟩
        exact hwa ▸ List.mem_map_of_mem _ hwmem

theorem stackInv_promoteToActive {s : WMState} (hs : StackInv s) (h : Nat) (f : Bool) :
    StackInv (promoteToActive s h f).1 := by
  obtain ⟨hnd, h0m, hemp, hne⟩ := hs
  cases hf : findIndex? (fun w => w.hwnd == h) s.managedWindows with
  | none =>
    rw [promoteToActive_not_found f hf]
    exact ⟨hnd, h0m, hemp, hne⟩
  | some i =>
    cases hah : s.activeHwnd == h with
    | true =>
      rw [promoteToActive_already f hf hah]
      exact ⟨hnd, h0m, hemp, hne⟩
    | false =>
      rw [promoteToActive_changed f hf hah]
      refine ⟨hnd, h0m, ?_, ?_⟩
      · intro he
        have he2 : s.managedWindows = [] := he
        rw [he2] at hf
        simp [findIndex?] at hf
      · intro _
        exact mem_map_of_findIndex?_some hf

theorem stackInv_applyOp {s : WMState} (hs : StackInv s) {op : StackOp}
    (hop : opWf op) : StackInv (applyOp s op) := by
  cases op with
  | add env h t => exact stackInv_addWindow env hs hop h t
  | remove h => exact stackInv_removeWindow hs h
  | promote h f => exact stackInv_promoteToActive hs h f

theorem stackInv_init : StackInv WMState.init := by
  refine ⟨?_, ?_, ?_, ?_⟩ <;> simp [WMState.init]

theorem stackInv_applyOps (ops : List StackOp) (hwf : ∀ op ∈ ops, opWf op)
    {s : WMState} (hs : StackInv s) : StackInv (applyOps s ops) := by
  induction ops generalizing s with
  | nil => exact hs
  | cons op ops ih =>
    exact ih (fun o ho => hwf o (List.mem_cons_of_mem _ ho))
      (stackInv_applyOp hs (hwf op (List.mem_cons_self _ _)))

/-- C3: starting from the empty stack, after every finite sequence of
addWindow, removeWindow and promoteToActive operations the managed handles
are pairwise distinct, the sentinel (handle 0) is the active handle only
when the stack is empty, and otherwise the active handle equals the handle
of some entry.  Each add observes a Win32 environment, for which
IsWindow(NULL) is always false. -/
theorem C3_stack_invariant (ops : List StackOp) (hwf : ∀ op ∈ ops, opWf op) :
    ((applyOps WMState.init ops).managedWindows.map MWindow.hwnd).Nodup ∧
    ((applyOps WMState.init ops).activeHwnd = 0 →
      (applyOps WMState.init ops).managedWindows = []) ∧
    ((applyOps WMState.init ops).managedWindows ≠ [] →
      (applyOps WMState.init ops).activeHwnd ∈
        (applyOps WMState.init ops).managedWindows.map MWindow.hwnd) := by
  obtain ⟨hnd, h0m, _, hne⟩ := stackInv_applyOps ops hwf stackInv_init
  refine ⟨hnd, ?_, hne⟩
  intro ha
  by_contra hne2
  exact h0m (ha ▸ hne hne2)

theorem C3_stack_invariant_witness :
    ((applyOps WMState.init opsW).managedWindows.map MWindow.hwnd).Nodup ∧
    (applyOps WMState.init opsW).activeHwnd ∈
      (applyOps WMState.init opsW).managedWindows.map MWindow.hwnd := by
  have h := C3_stack_invariant opsW (by decide)
  exact ⟨h.1, h.2.2 (by decide)⟩

/-- C4: promoteToActive never changes the managed list (elements or order),
touches only the active handle among the state fields, and on an unmanaged
handle returns the unchanged state with the JS false result. -/
theorem C4_promote_preserves_order (s : WMState) (h : Nat) (f : Bool) :
    (promoteToActive s h f).1.managedWindows = s.managedWindows ∧
    (promoteToActive s h f).1 =
      { s with activeHwnd := (promoteToActive s h f).1.activeHwnd } ∧
    (h ∉ s.managedWindows.map MWindow.hwnd → promoteToActive s h f = (s, false)) := by
  cases hf : findIndex? (fun w => w.hwnd == h) s.managedWindows with
  | none =>
    rw [promoteToActive_not_found f hf]
    exact ⟨rfl, rfl, fun _ => rfl⟩
  | some i =>
    have hmem := mem_map_of_findIndex?_some hf
    cases hah : s.activeHwnd == h with
    | true =>
      rw [promoteToActive_already f hf hah]
      exact ⟨rfl, rfl, fun hm => absurd hmem hm⟩
    | false =>
      rw [promoteToActive_changed f hf hah]
      exact ⟨rfl, rfl, fun hm => absurd hmem hm⟩

theorem C4_promote_preserves_order_witness :
    promoteToActive s3 99 false = (s3, false) :=
  (C4_promote_preserves_order s3 99 false).2.2 (by decide)

/-- C7: removeWindow on a managed handle removes exactly that entry,
preserving the relative order of the rest (the new list is the old list
filtered at that handle); if the removed handle was active, the new active
handle is the handle of the new front entry, or the sentinel 0 when nothing
remains; if it was not active, the active handle is unchanged; on an
unmanaged handle the call is a no-op. -/
theorem C7_remove_window (s : WMState) (h : Nat) :
    (h ∉ s.managedWindows.map MWindow.hwnd → removeWindow s h = s) ∧
    ((s.managedWindows.map MWindow.hwnd).Nodup →
      h ∈ s.managedWindows.map MWindow.hwnd →
      (removeWindow s h).managedWindows =
        s.managedWindows.filter (fun w => w.hwnd != h) ∧
      (s.activeHwnd = h →
        ((removeWindow s h).managedWindows = [] → (removeWindow s h).activeHwnd = 0) ∧
        (∀ w, (removeWindow s h).managedWindows.head? = some w →
          (removeWindow s h).activeHwnd = w.hwnd)) ∧
      (s.activeHwnd ≠ h → (removeWindow s h).activeHwnd = s.activeHwnd)) := by
  refine ⟨removeWindow_not_mem, ?_⟩
  intro hnd hmem
  cases hf : findIndex? (fun w => w.hwnd == h) s.managedWindows with
  | none =>
    exfalso
    obtain ⟨w, hw, hww⟩ := List.mem_map.mp hmem
    exact absurd (beq_eq_false_iff_ne.mp (findIndex?_eq_none_iff.mp hf w hw)) (by simp [hww])
  | some i =>
    have hfil := spliceAt_findIndex_eq_filter hnd hf
    rw [removeWindow_found hf]
    refine ⟨hfil, ?_, ?_⟩
    · intro hah
      have hahb : (s.activeHwnd == h) = true := by simp [hah]
      constructor
      · intro he
        have he2 : spliceAt s.managedWindows i = [] := he
        simp [hahb, he2]
      · intro w hw
        have hw2 : (spliceAt s.managedWindows i).head? = some w := hw
        simp [hahb, hw2]
    · intro hah
      have hahb : (s.activeHwnd == h) = false := by simp [hah]
      simp [hahb]

theorem C7_remove_window_witness :
    (removeWindow s3 2).managedWindows =
      s3.managedWindows.filter (fun w => w.hwnd != 2) ∧
    (removeWindow s3 2).activeHwnd = s3.activeHwnd := by
  have h := (C7_remove_window s3 2).2 (by decide) (by decide)
  exact ⟨h.1, h.2.2 (by decide)⟩

/-- C8: addWindow is a no-op (state unchanged; the embedding is total, so no
exception can propagate) whenever the handle is already managed or IsWindow
rejects it; otherwise it inserts the new entry at the front and makes it the
active handle. -/
theorem C8_add_window (env : OSEnv) (s : WMState) (h : Nat) (title : String) :
    ((h ∈ s.managedWindows.map MWindow.hwnd ∨ env.isWindow h = false) →
      addWindow env s h title = s) ∧
    (h ∉ s.managedWindows.map MWindow.hwnd → env.isWindow h = true →
      ∃ entry : MWindow, entry.hwnd = h ∧
        (addWindow env s h title).managedWindows = entry :: s.managedWindows ∧
        (addWindow env s h title).activeHwnd = h) := by
  constructor
  · intro hcase
    cases hany : s.managedWindows.any (fun w => w.hwnd == h) with
    | true => simp [addWindow, hany]
    | false =>
      rcases hcase with hmem | hiw
      · exfalso
        obtain ⟨w, hw, hww⟩ := List.mem_map.mp hmem
        exact absurd (List.any_eq_false.mp hany w hw) (by simp [hww])
      · simp [addWindow, hany, hiw]
  · intro hmem hiw
    have hany : s.managedWindows.any (fun w => w.hwnd == h) = false := by
      refine List.any_eq_false.mpr ?_
      intro w hw hww
      exact hmem ((eq_of_beq hww) ▸ List.mem_map_of_mem _ hw)
    refine ⟨{ hwnd := h
              title := if title.isEmpty then
                  (if (env.windowTitle h).isEmpty then "Untitled" else env.windowTitle h)
                else title
              customTitle := none
              processId := env.windowPid h
              originalRect := (env.windowRect h).getD
                { left := 0, top := 0, right := 0, bottom := 0 } },
      rfl, ?_, ?_⟩ <;> simp [addWindow, hany, hiw]

theorem C8_add_window_witness :
    (addWindow envW s3 5 "t").activeHwnd = 5 ∧
    (addWindow envW s3 5 "t").managedWindows.length = 4 := by
  obtain ⟨entry, _, hm, ha⟩ := (C8_add_window envW s3 5 "t").2 (by decide) (by decide)
  refine ⟨ha, ?_⟩
  rw [hm]
  rfl
theorem setBackgroundColor_valid {s : WMState} {c : String}
    (hs : matchesHexColor s.backgroundColor = true) :
    matchesHexColor (setBackgroundColor s c).backgroundColor = true := by
  unfold setBackgroundColor
  cases hc : matchesHexColor c with
  | true => simpa using hc
  | false => simpa using hs

/-- The background color after a sequence of setBackgroundColor calls. -/
def applyColorOps (s : WMState) (cs : List String) : WMState :=
  cs.foldl setBackgroundColor s

/-- C10: from the initial color, after any sequence of setBackgroundColor
calls the stored color still matches the six-hex-digit pattern, and a call
with a non-matching input leaves the state unchanged (no error is
reported: the embedding returns the old state). -/
theorem C10_background_color :
    (∀ cs : List String,
      matchesHexColor (applyColorOps WMState.init cs).backgroundColor = true) ∧
    (∀ (s : WMState) (c : String), matchesHexColor c = false →
      setBackgroundColor s c = s) := by
  constructor
  · have H : ∀ (cs : List String) (s : WMState),
        matchesHexColor s.backgroundColor = true →
        matchesHexColor (applyColorOps s cs).backgroundColor = true := by
      intro cs
      induction cs with
      | nil => exact fun s hs => hs
      | cons c cs ih => exact fun s hs => ih _ (setBackgroundColor_valid hs)
    intro cs
    exact H cs _ (by decide)
  · intro s c hc
    simp [setBackgroundColor, hc]

theorem C10_background_color_witness :
    setBackgroundColor WMState.init "red" = WMState.init ∧
    matchesHexColor (applyColorOps WMState.init ["#1A2b3c", "red"]).backgroundColor = true :=
  ⟨C10_background_color.2 WMState.init "red" (by decide),
   C10_background_color.1 ["#1A2b3c", "red"]⟩
theorem effectiveWidthOf_le (s : WMState) (sb : ScreenBounds) :
    effectiveWidthOf s sb ≤ availableWidthOf sb := by
  unfold effectiveWidthOf
  cases s.customWidth with
  | none => exact le_refl _
  | some w => exact min_le_right _ _

theorem effectiveHeightOf_le (s : WMState) (sb : ScreenBounds) :
    effectiveHeightOf s sb ≤ sb.height := by
  unfold effectiveHeightOf
  cases s.customHeight with
  | none => exact le_refl _
  | some hh => exact min_le_right _ _

theorem effectiveHeaderHeight_pos (effH n : Int) :
    0 < effectiveHeaderHeight effH n := by
  unfold effectiveHeaderHeight
  split
  · calc (0 : Int) < 10 := by norm_num
      _ ≤ max (Int.fdiv (maxStripArea effH) n) 10 := le_max_right _ _
  · norm_num [HEADER_HEIGHT]

theorem activeWindowOf_of_ne_nil {s : WMState} (h : s.managedWindows ≠ []) :
    ∃ aw, activeWindowOf s = some aw := by
  unfold activeWindowOf
  cases hf : s.managedWindows.find? (fun w => w.hwnd == s.activeHwnd) with
  | some w => exact ⟨w, rfl⟩
  | none =>
    cases hm : s.managedWindows with
    | nil => exact absurd hm h
    | cons a as => exact ⟨a, rfl⟩

theorem managed_ne_nil_of_activeWindowOf {s : WMState} {aw : MWindow}
    (h : activeWindowOf s = some aw) : s.managedWindows ≠ [] := by
  intro e
  rw [activeWindowOf, e] at h
  simp [List.find?] at h

theorem inactiveCountOf_of_activeWindowOf {s : WMState} {aw : MWindow}
    (h : activeWindowOf s = some aw) :
    inactiveCountOf s = (s.managedWindows.length : Int) - 1 := by
  unfold inactiveCountOf
  rw [h]
  rfl

theorem inactiveCountOf_nonneg {s : WMState} {aw : MWindow}
    (h : activeWindowOf s = some aw) : 0 ≤ inactiveCountOf s := by
  rw [inactiveCountOf_of_activeWindowOf h]
  have hne := managed_ne_nil_of_activeWindowOf h
  have : 1 ≤ s.managedWindows.length := List.length_pos.mpr hne
  omega

theorem fdiv5_lt_iff {a m : Int} : Int.fdiv a 5 < m ↔ a < 5 * m := by
  rw [Int.fdiv_eq_ediv a (by norm_num : (0 : Int) ≤ 5)]
  omega

/-- C6: the strip height is the 40px constant, except that whenever 40px
strips would exceed 60 percent of the effective height (for integer strip
counts, inactiveCount times 40 exceeds 0.6 times effectiveHeight exactly
when 3 times effectiveHeight is less than 200 times inactiveCount) it is
shrunk to the floored quotient of the strip-area cap by the count, floored
at 10px; in particular at effectiveHeight 600 and inactiveCount 10 it is 36,
not 40. -/
theorem C6_strip_height :
    (∀ effH n : Int, 3 * effH < 200 * n →
      effectiveHeaderHeight effH n = max (Int.fdiv (maxStripArea effH) n) 10) ∧
    (∀ effH n : Int, 200 * n ≤ 3 * effH →
      effectiveHeaderHeight effH n = 40) ∧
    effectiveHeaderHeight 600 10 = 36 := by
  refine ⟨?_, ?_, by decide⟩
  · intro effH n hlt
    have hcond : maxStripArea effH < n * HEADER_HEIGHT := by
      unfold maxStripArea HEADER_HEIGHT
      rw [fdiv5_lt_iff]
      linarith
    unfold effectiveHeaderHeight
    rw [if_pos hcond]
  · intro effH n hge
    have hcond : ¬(maxStripArea effH < n * HEADER_HEIGHT) := by
      unfold maxStripArea HEADER_HEIGHT
      rw [fdiv5_lt_iff]
      intro hcon
      linarith
    unfold effectiveHeaderHeight
    rw [if_neg hcond]
    rfl

theorem C6_strip_height_witness :
    effectiveHeaderHeight 600 10 = max (Int.fdiv (maxStripArea 600) 10) 10 ∧
    effectiveHeaderHeight 700 10 = 40 :=
  ⟨C6_strip_height.1 600 10 (by decide), C6_strip_height.2.1 700 10 (by decide)⟩
theorem layoutStack_eq_some {env : OSEnv} {s : WMState} {sb : ScreenBounds}
    {ls : List TargetLayout} (h : layoutStack env s sb = some ls) :
    s.managedWindows ≠ [] ∧ ¬(availableWidthOf sb < 200) ∧
    ls = stripTargets env s sb ++ activeTarget env s sb := by
  unfold layoutStack at h
  by_cases he : s.managedWindows.isEmpty = true
  · rw [if_pos he] at h
    exact absurd h (by simp)
  · rw [if_neg he] at h
    by_cases hw : availableWidthOf sb < 200
    · rw [if_pos hw] at h
      exact absurd h (by simp)
    · rw [if_neg hw] at h
      refine ⟨fun e => he (by simp [e]), hw, (Option.some.inj h).symm⟩

/-- C5: in every layout pass with at least one managed window, the active
window target sits at the stack origin, vertically below the inactive strips
(inactiveCount, which then equals the managed count minus one, times the
strip height), sized effectiveWidth by the remaining height, except that
when the remaining height is not above the 100px viability guard the full
effective height is used instead. -/
theorem C5_active_target (env : OSEnv) (s : WMState) (sb : ScreenBounds)
    (ls : List TargetLayout) (hl : layoutStack env s sb = some ls) :
    ∃ aw, activeWindowOf s = some aw ∧
      inactiveCountOf s = (s.managedWindows.length : Int) - 1 ∧
      ls.getLast? = some
        { hwnd := aw.hwnd
          x := stackStartX sb
          y := sb.y + inactiveCountOf s *
            effectiveHeaderHeight (effectiveHeightOf s sb) (inactiveCountOf s)
          cx := effectiveWidthOf s sb
          cy := if effectiveHeightOf s sb - inactiveCountOf s *
                effectiveHeaderHeight (effectiveHeightOf s sb) (inactiveCountOf s) > 100
            then effectiveHeightOf s sb - inactiveCountOf s *
                effectiveHeaderHeight (effectiveHeightOf s sb) (inactiveCountOf s)
            else effectiveHeightOf s sb
          flags := SWP_SHOWWINDOW ||| SWP_NOACTIVATE
          restore := env.isIconic aw.hwnd || env.isZoomed aw.hwnd } := by
  obtain ⟨hne, hwid, rfl⟩ := layoutStack_eq_some hl
  obtain ⟨aw, haw⟩ := activeWindowOf_of_ne_nil hne
  refine ⟨aw, haw, inactiveCountOf_of_activeWindowOf haw, ?_⟩
  have hat : activeTarget env s sb =
      [{ hwnd := aw.hwnd
         x := stackStartX sb
         y := sb.y + inactiveCountOf s *
           effectiveHeaderHeight (effectiveHeightOf s sb) (inactiveCountOf s)
         cx := effectiveWidthOf s sb
         cy := if effectiveHeightOf s sb - inactiveCountOf s *
               effectiveHeaderHeight (effectiveHeightOf s sb) (inactiveCountOf s) > 100
           then effectiveHeightOf s sb - inactiveCountOf s *
               effectiveHeaderHeight (effectiveHeightOf s sb) (inactiveCountOf s)
           else effectiveHeightOf s sb
         flags := SWP_SHOWWINDOW ||| SWP_NOACTIVATE
         restore := env.isIconic aw.hwnd || env.isZoomed aw.hwnd }] := by
    unfold activeTarget
    rw [haw]
  rw [hat, List.getLast?_concat]

theorem C5_active_target_witness :
    lsW.getLast? = some
      { hwnd := 1, x := 300, y := 80, cx := 1620, cy := 1000,
        flags := 80, restore := false } ∧
    inactiveCountOf s3 = 2 := by
  obtain ⟨aw, haw, hc, hl⟩ := C5_active_target envW s3 sb0 lsW (by decide)
  have haw2 : activeWindowOf s3 = some (mw 1) := by decide
  rw [haw] at haw2
  obtain rfl : aw = mw 1 := Option.some.inj haw2
  constructor
  · rw [hl]
    decide
  · rw [hc]
    decide

/-- C1 (amended): every target rectangle stays within the display right
edge horizontally, and its height never exceeds the work-area height; the
bottom edges themselves can exceed the work-area bottom edge, because every
inactive strip is a full-height window shifted down by its strip index and
the 100px fallback gives the active window full height below the strips (see
the counterexample). -/
theorem C1_layout_edges (env : OSEnv) (s : WMState) (sb : ScreenBounds)
    (dre : Int) (hd : sb.displayRightEdge = some dre)
    (ls : List TargetLayout) (hl : layoutStack env s sb = some ls) :
    ∀ l ∈ ls, l.x + l.cx ≤ dre ∧ l.cy ≤ sb.height := by
  obtain ⟨hne, hwid, rfl⟩ := layoutStack_eq_some hl
  have hdre : displayRightEdgeOf sb = dre := by
    unfold displayRightEdgeOf
    rw [hd]
  have havail : availableWidthOf sb = dre - stackStartX sb := by
    unfold availableWidthOf
    rw [hdre]
  have hwle : stackStartX sb + effectiveWidthOf s sb ≤ dre := by
    have := effectiveWidthOf_le s sb
    omega
  have hhle := effectiveHeightOf_le s sb
  intro l hmem
  rcases List.mem_append.mp hmem with hstrip | hact
  · obtain ⟨p, hp, rfl⟩ := List.mem_map.mp hstrip
    exact ⟨hwle, hhle⟩
  · unfold activeTarget at hact
    obtain ⟨aw, haw⟩ := activeWindowOf_of_ne_nil hne
    rw [haw] at hact
    have hk := inactiveCountOf_nonneg haw
    have hpos := effectiveHeaderHeight_pos (effectiveHeightOf s sb) (inactiveCountOf s)
    have hprod : 0 ≤ inactiveCountOf s *
        effectiveHeaderHeight (effectiveHeightOf s sb) (inactiveCountOf s) :=
      mul_nonneg hk (le_of_lt hpos)
    have hl2 : l =
        { hwnd := aw.hwnd
          x := stackStartX sb
          y := sb.y + inactiveCountOf s *
            effectiveHeaderHeight (effectiveHeightOf s sb) (inactiveCountOf s)
          cx := effectiveWidthOf s sb
          cy := if effectiveHeightOf s sb - inactiveCountOf s *
                effectiveHeaderHeight (effectiveHeightOf s sb) (inactiveCountOf s) > 100
            then effectiveHeightOf s sb - inactiveCountOf s *
                effectiveHeaderHeight (effectiveHeightOf s sb) (inactiveCountOf s)
            else effectiveHeightOf s sb
          flags := SWP_SHOWWINDOW ||| SWP_NOACTIVATE
          restore := env.isIconic aw.hwnd || env.isZoomed aw.hwnd } := by
      simpa using hact
    subst hl2
    refine ⟨hwle, ?_⟩
    show (if effectiveHeightOf s sb - inactiveCountOf s *
          effectiveHeaderHeight (effectiveHeightOf s sb) (inactiveCountOf s) > 100
      then effectiveHeightOf s sb - inactiveCountOf s *
          effectiveHeaderHeight (effectiveHeightOf s sb) (inactiveCountOf s)
      else effectiveHeightOf s sb) ≤ sb.height
    split
    · omega
    · exact hhle

/-- C1, as stated, is false on the code: with three managed windows on a
1080px-tall work area the second inactive strip is a full-height window
placed 40px down, so its bottom edge (1120) exceeds the work-area bottom
edge (1080). -/
theorem C1_bottom_edge_counterexample :
    ∃ l ∈ (layoutStack envW s3 sb0).getD [], sb0.y + sb0.height < l.y + l.cy := by
  decide

theorem C1_layout_edges_witness :
    rW1.x + rW1.cx ≤ 1920 ∧ rW1.cy ≤ sb0.height := by
  have h := C1_layout_edges envW s1 sb0 1920 rfl [rW1] (by decide)
  exact h rW1 (by decide)
theorem mem_targets_x {env : OSEnv} {s : WMState} {sb : ScreenBounds} {l : TargetLayout}
    (hmem : l ∈ stripTargets env s sb ++ activeTarget env s sb) :
    l.x = stackStartX sb := by
  rcases List.mem_append.mp hmem with hstrip | hact
  · obtain ⟨p, hp, rfl⟩ := List.mem_map.mp hstrip
    rfl
  · unfold activeTarget at hact
    cases haw : activeWindowOf s with
    | none =>
      rw [haw] at hact
      exact absurd hact (List.not_mem_nil l)
    | some aw =>
      rw [haw] at hact
      have hl2 : l =
          { hwnd := aw.hwnd
            x := stackStartX sb
            y := sb.y + inactiveCountOf s *
              effectiveHeaderHeight (effectiveHeightOf s sb) (inactiveCountOf s)
            cx := effectiveWidthOf s sb
            cy := if effectiveHeightOf s sb - inactiveCountOf s *
                  effectiveHeaderHeight (effectiveHeightOf s sb) (inactiveCountOf s) > 100
              then effectiveHeightOf s sb - inactiveCountOf s *
                  effectiveHeaderHeight (effectiveHeightOf s sb) (inactiveCountOf s)
              else effectiveHeightOf s sb
            flags := SWP_SHOWWINDOW ||| SWP_NOACTIVATE
            restore := env.isIconic aw.hwnd || env.isZoomed aw.hwnd } := by
        simpa using hact
      rw [hl2]

/-- C2 (spec-modelled): the gap-aware layout computes the stack origin as
the panel right edge plus the clamped stack gap, rejects the call as a
positioning no-op when fewer than 200px remain right of the origin, and
otherwise places every target rectangle at that origin; the clamp keeps the
gap in the range 0 to 500. -/
theorem C2_stack_origin_floor (env : OSEnv) (s : WMState)
    (panelRight gap workY workH monitorRight : Int)
    (hne : s.managedWindows ≠ []) :
    (monitorRight - (panelRight + clampGap gap) < 200 →
      layoutStackWithGap env s panelRight gap workY workH monitorRight = none) ∧
    (∀ ls, layoutStackWithGap env s panelRight gap workY workH monitorRight = some ls →
      ls ≠ [] ∧ ∀ l ∈ ls, l.x = panelRight + clampGap gap) ∧
    0 ≤ clampGap gap ∧ clampGap gap ≤ 500 := by
  have hemp : s.managedWindows.isEmpty = false := by
    cases hm : s.managedWindows with
    | nil => exact absurd hm hne
    | cons a as => rfl
  refine ⟨?_, ?_, ?_, ?_⟩
  · intro hlt
    unfold layoutStackWithGap
    rw [hemp]
    simp only [Bool.false_eq_true, if_false]
    rw [if_pos hlt]
  · intro ls hls
    unfold layoutStackWithGap at hls
    rw [hemp] at hls
    simp only [Bool.false_eq_true, if_false] at hls
    by_cases hlt : monitorRight - (panelRight + clampGap gap) < 200
    · rw [if_pos hlt] at hls
      exact absurd hls (by simp)
    · rw [if_neg hlt] at hls
      obtain rfl : _ = ls := Option.some.inj hls
      obtain ⟨aw, haw⟩ := activeWindowOf_of_ne_nil hne
      have hat : activeTarget env s
          { x := panelRight + clampGap gap, y := workY, width := 0, height := workH,
            displayRightEdge := some monitorRight } ≠ [] := by
        unfold activeTarget
        rw [haw]
        simp
      constructor
      · intro he
        exact hat (List.append_eq_nil.mp he).2
      · intro l hmem
        rw [mem_targets_x hmem]
        simp [stackStartX]
  · unfold clampGap
    have h1 : (0 : Int) ≤ max gap 0 := le_max_right _ _
    have h2 : (0 : Int) ≤ 500 := by norm_num
    exact le_min h1 h2
  · exact min_le_right _ _

theorem C2_stack_origin_floor_witness :
    layoutStackWithGap envW s3 300 50 0 1080 140 = none :=
  (C2_stack_origin_floor envW s3 300 50 0 1080 140 (by decide)).1 (by decide)
/-- C9 (amended): getOtherInstancesHwnds returns exactly the handles listed
by some live registry entry other than the calling instance (so a handle
recorded only in the caller entry never appears, though a handle that a
sibling entry also lists does), and the registry it persists is the read
registry with every dead-pid entry pruned. -/
theorem C9_pruned_union (alive : Nat → Bool) (selfId : String) (reg : Registry) :
    (getOtherInstancesHwnds alive selfId reg).1 =
      reg.filter (fun e => alive (Prod.snd e).pid) ∧
    (∀ e ∈ (getOtherInstancesHwnds alive selfId reg).1, alive (Prod.snd e).pid = true) ∧
    (∀ h : Nat, h ∈ (getOtherInstancesHwnds alive selfId reg).2 ↔
      ∃ e ∈ reg, Prod.fst e ≠ selfId ∧ alive (Prod.snd e).pid = true ∧
        h ∈ (Prod.snd e).managedHwnds) := by
  refine ⟨rfl, ?_, ?_⟩
  · intro e he
    exact (List.mem_filter.mp he).2
  · intro h
    unfold getOtherInstancesHwnds pruneDeadInstances
    constructor
    · intro hmem
      obtain ⟨lh, hlh, hmem2⟩ := List.mem_flatten.mp hmem
      obtain ⟨e, he, rfl⟩ := List.mem_map.mp hlh
      obtain ⟨hp, hbne⟩ := List.mem_filter.mp he
      obtain ⟨hereg, halive⟩ := List.mem_filter.mp hp
      exact ⟨e, hereg, bne_iff_ne.mp hbne, halive, hmem2⟩
    · rintro ⟨e, hereg, hne, halive, hmem2⟩
      refine List.mem_flatten.mpr ⟨(Prod.snd e).managedHwnds, ?_, hmem2⟩
      refine List.mem_map.mpr ⟨e, ?_, rfl⟩
      exact List.mem_filter.mpr ⟨List.mem_filter.mpr ⟨hereg, halive⟩, bne_iff_ne.mpr hne⟩

/-- C9, as stated, is false on the code: when a sibling live entry lists a
handle that the caller entry also lists, the result contains that handle
even though it is one of the caller managed handles. -/
theorem C9_own_handle_counterexample :
    5 ∈ (getOtherInstancesHwnds (fun _ => true) "self" regC).2 ∧
    (∃ e ∈ regC, Prod.fst e = "self" ∧ 5 ∈ (Prod.snd e).managedHwnds) := by
  decide
theorem C9_pruned_union_witness :
    5 ∈ (getOtherInstancesHwnds (fun _ => true) "self" regC).2 :=
  ((C9_pruned_union (fun _ => true) "self" regC).2.2 5).mpr
    ⟨("other", { pid := 2, startedAt := "t1", managedHwnds := [5] }),
      by decide, by decide, by decide, by decide⟩
end StackWindows
